import Mathlib

/-!
Verification of the quote-store program (`qualifier.py`) against its
natural-language specification.

Python strings are modelled as `List Char`; each Python builtin the program
uses gets a Lean definition with that builtin's semantics, and each function
of the program is translated directly.  The process-wide `Database.quotes`
list is threaded explicitly: stateful functions take the current store and
return the new store together with an `Except` value modelling raised
exceptions; console prints and `warnings.warn` calls are collected as
`OutEvent`s.  Every `raise` in the source occurs before the single mutation
point (`cls.quotes.append`), which the state threading below reflects.
-/

namespace Qualifier

/-- `MAX_QUOTE_LENGTH = 50`. -/
def MAX_QUOTE_LENGTH : Nat := 50

/-- The `VariantMode` enumeration (`NORMAL`, `UWU`, `PIGLATIN`). -/
inductive VariantMode
  | NORMAL
  | UWU
  | PIGLATIN
deriving DecidableEq

/-- Exceptions the program raises.  In Python these are `ValueError`s with
three distinct messages ("Invalid command", "Quote is too long",
"Quote was not modified") plus `NotImplementedError`.  `DuplicateError` is
modelled separately below because it is caught inside `add_quote`. -/
inductive Err
  | invalidCommand
  | tooLong
  | notModified
  | notImplemented
deriving DecidableEq

/-- `DuplicateError`, raised by `Database.add_quote`. -/
inductive DuplicateError
  | mk
deriving DecidableEq

/-- One console print (`print(...)`) or warning (`warnings.warn(...)`). -/
inductive OutEvent
  | print (s : List Char)
  | warn (s : List Char)
deriving DecidableEq

instance {ε α : Type} [DecidableEq ε] [DecidableEq α] : DecidableEq (Except ε α) := fun x y =>
  match x, y with
  | Except.error a, Except.error b =>
      if h : a = b then Decidable.isTrue (by rw [h])
      else Decidable.isFalse (fun hc => h (Except.error.inj hc))
  | Except.ok a, Except.ok b =>
      if h : a = b then Decidable.isTrue (by rw [h])
      else Decidable.isFalse (fun hc => h (Except.ok.inj hc))
  | Except.error _, Except.ok _ => Decidable.isFalse (fun hc => Except.noConfusion hc)
  | Except.ok _, Except.error _ => Decidable.isFalse (fun hc => Except.noConfusion hc)

/-- The `Quote` class: a quote string paired with its `VariantMode`.
`str(quote)` returns the `quote` field (`__str__`). -/
structure Quote where
  quote : List Char
  mode : VariantMode
deriving DecidableEq

/-- Python `s.replace(a, b)` for a single-character pattern `a` and a
single-character replacement `b`: every occurrence of `a` becomes `b`. -/
def pyReplace (a b : Char) (s : List Char) : List Char :=
  s.map fun c => if c = a then b else c

/-- Python `s.split(sep)` for a single-character separator: splits at every
occurrence of `sep`, keeping empty parts (so `"".split(" ") = [""]`). -/
def pySplit (sep : Char) : List Char → List (List Char)
  | [] => [[]]
  | c :: cs =>
    match pySplit sep cs with
    | [] => [[]]
    | w :: ws => if c = sep then [] :: w :: ws else (c :: w) :: ws

/-- Python slicing `s[a:b]` for nonnegative `a` and `b` (the program calls it
with `b = len s - 1`, the meaning of the `-1` stop index on the nonempty
commands that reach it). -/
def pySlice (s : List Char) (a b : Nat) : List Char :=
  (s.drop a).take (b - a)

/-- `partially_transformed_quote` computed inside `uwuify`:
`quote.replace("L","W").replace("l","w").replace("R","W").replace("r","w")`. -/
def partially_transformed_quote (quote : List Char) : List Char :=
  pyReplace ('r') ('w') (pyReplace ('R') ('W') (pyReplace ('l') ('w') (pyReplace ('L') ('W') quote)))

/-- The per-word step of `uwuify`:
`f"U-{word}" if word.startswith("U") else f"u-{word}" if word.startswith("u") else word`. -/
def uwuWord (word : List Char) : List Char :=
  if ['U'] <+: word then ('U') :: ('-') :: word
  else if ['u'] <+: word then ('u') :: ('-') :: word
  else word

/-- `fully_transformed_quote` computed inside `uwuify`:
`" ".join(<uwuWord> for word in partially_transformed_quote.split(" "))`. -/
def fully_transformed_quote (quote : List Char) : List Char :=
  List.intercalate ([' ']) ((pySplit (' ') (partially_transformed_quote quote)).map uwuWord)

/-- `uwuify`: falls back to the partial transformation (with a warning) when
the full one exceeds `MAX_QUOTE_LENGTH`, raises `ValueError` when the chosen
transformation equals the input, and otherwise returns it. -/
def uwuify (quote : List Char) : Except Err (List Char × List OutEvent) :=
  let transformed :=
    if (fully_transformed_quote quote).length > MAX_QUOTE_LENGTH then
      (partially_transformed_quote quote,
        [OutEvent.warn (("Quote too long, only partially transformed").toList)])
    else (fully_transformed_quote quote, ([] : List OutEvent))
  if transformed.1 = quote then Except.error Err.notModified
  else Except.ok transformed

/-- `Database.get_quotes`: `[str(quote) for quote in cls.quotes]`. -/
def Database.get_quotes (quotes : List Quote) : List (List Char) :=
  quotes.map Quote.quote

/-- `Database.add_quote`: raises `DuplicateError` when `str(quote)` already
occurs in `get_quotes`, otherwise appends the quote. -/
def Database.add_quote (quote : Quote) (quotes : List Quote) :
    Except DuplicateError (List Quote) :=
  if quote.quote ∈ Database.get_quotes quotes then Except.error DuplicateError.mk
  else Except.ok (quotes ++ [quote])

/-- Module-level `add_quote`: rejects quotes longer than `MAX_QUOTE_LENGTH`,
then calls `Database.add_quote`, catching `DuplicateError` and printing
"Quote has already been added previously" instead of propagating it. -/
def add_quote (quote : List Char) (mode : VariantMode) (db : List Quote) :
    List Quote × Except Err (List OutEvent) :=
  if quote.length > MAX_QUOTE_LENGTH then (db, Except.error Err.tooLong)
  else
    match Database.add_quote ⟨quote, mode⟩ db with
    | Except.error _ =>
        (db, Except.ok [OutEvent.print (("Quote has already been added previously").toList)])
    | Except.ok db' => (db', Except.ok [])

/-- `list_formatted_quotes`:
`"\n".join(f"- {quote}" for quote in Database.get_quotes())`. -/
def list_formatted_quotes (db : List Quote) : List Char :=
  List.intercalate [('\n')]
    ((Database.get_quotes db).map fun q => ('-') :: (' ') :: q)

/-- The `quote uwu` branch of `run_command`: uwuify the raw quote, then add
the result with mode `UWU`; exceptions propagate, outputs accumulate. -/
def uwuAdd (raw_quote : List Char) (db : List Quote) :
    List Quote × Except Err (List OutEvent) :=
  match uwuify raw_quote with
  | Except.error e => (db, Except.error e)
  | Except.ok (uwuified_quote, evs) =>
      match add_quote uwuified_quote VariantMode.UWU db with
      | (db', Except.error e) => (db', Except.error e)
      | (db', Except.ok evs') => (db', Except.ok (evs ++ evs'))

/-- `run_command`: the four guarded `match` cases of the source, checked in
order (`quote uwu`, `quote piglatin`, `quote list`, the quoted `quote` form),
with `ValueError "Invalid command"` as the fallthrough.  The `quote piglatin`
branch computes `command[16:-1]` and then unconditionally raises, so only the
raise is observable. -/
def run_command (command : List Char) (db : List Quote) :
    List Quote × Except Err (List OutEvent) :=
  if ("quote uwu").toList <+: command then
    uwuAdd (pySlice command 11 (command.length - 1)) db
  else if ("quote piglatin").toList <+: command then
    (db, Except.error Err.notImplemented)
  else if ("quote list").toList <+: command then
    (db, Except.ok [OutEvent.print (list_formatted_quotes db)])
  else if (("quote \"").toList <+: command ∧ ("\"").toList <:+ command)
      ∨ (("quote “").toList <+: command ∧ ("”").toList <:+ command) then
    add_quote (pySlice command 7 (command.length - 1)) VariantMode.NORMAL db
  else (db, Except.error Err.invalidCommand)

/-- Step (b) of the transform as claim C1 words it: a hyphen is inserted
after the first character of a word starting with `U`/`u` (`under` would
become `u-nder`).  This definition follows the claim's words, to be compared
with `uwuWord`, which follows the source. -/
def uwuWordClaim (word : List Char) : List Char :=
  match word with
  | [] => []
  | c :: rest => if c = ('U') ∨ c = ('u') then c :: ('-') :: rest else c :: rest

/-- The whole transform as claim C1 words it, to be compared with
`fully_transformed_quote`. -/
def uwuTransformClaim (quote : List Char) : List Char :=
  List.intercalate ([' ']) ((pySplit (' ') (partially_transformed_quote quote)).map uwuWordClaim)

/-- Character-level description of transform step (a). -/
def uwuChar (c : Char) : Char :=
  if c = ('L') then ('W') else if c = ('l') then ('w')
  else if c = ('R') then ('W') else if c = ('r') then ('w') else c

lemma run_command_uwu (c : List Char) (db : List Quote)
    (h : ("quote uwu").toList <+: c) :
    run_command c db = uwuAdd (pySlice c 11 (c.length - 1)) db := by
  unfold run_command
  rw [if_pos h]

lemma pySlice_uwu (t : List Char) :
    pySlice ((("quote uwu\"").toList) ++ t ++ (("\"").toList)) 11
      (((("quote uwu\"").toList) ++ t ++ (("\"").toList)).length - 1) = t.drop 1 := by
  cases t with
  | nil => rfl
  | cons a t' =>
    unfold pySlice
    have h1 : ((("quote uwu\"").toList) ++ (a :: t') ++ (("\"").toList)).drop 11
        = t' ++ (("\"").toList) := rfl
    have h2 : ((("quote uwu\"").toList) ++ (a :: t') ++ (("\"").toList)).length - 1 - 11
        = t'.length := by
      simp [List.length_append]
    rw [h1, h2]
    have h3 := List.take_left t' ((("\"").toList))
    exact h3

lemma add_quote_spec (s : List Char) (m : VariantMode) (db : List Quote) :
    (MAX_QUOTE_LENGTH < s.length → add_quote s m db = (db, Except.error Err.tooLong)) ∧
    (s.length ≤ MAX_QUOTE_LENGTH → s ∈ Database.get_quotes db →
      add_quote s m db =
        (db, Except.ok [OutEvent.print (("Quote has already been added previously").toList)])) ∧
    (s.length ≤ MAX_QUOTE_LENGTH → s ∉ Database.get_quotes db →
      add_quote s m db = (db ++ [⟨s, m⟩], Except.ok [])) := by
  refine ⟨fun h => ?_, fun h1 h2 => ?_, fun h1 h2 => ?_⟩
  · unfold add_quote
    rw [if_pos h]
  · have hd : Database.add_quote ⟨s, m⟩ db = Except.error DuplicateError.mk := by
      unfold Database.add_quote
      rw [if_pos h2]
    unfold add_quote
    rw [if_neg (Nat.not_lt.mpr h1), hd]
  · have hd : Database.add_quote ⟨s, m⟩ db = Except.ok (db ++ [⟨s, m⟩]) := by
      unfold Database.add_quote
      rw [if_neg h2]
    unfold add_quote
    rw [if_neg (Nat.not_lt.mpr h1), hd]

lemma add_quote_error_store {s : List Char} {m : VariantMode} {db : List Quote} {e : Err}
    (h : (add_quote s m db).2 = Except.error e) : (add_quote s m db).1 = db := by
  by_cases hl : s.length > MAX_QUOTE_LENGTH
  · unfold add_quote
    rw [if_pos hl]
  · unfold add_quote at h
    rw [if_neg hl] at h
    cases hd : Database.add_quote ⟨s, m⟩ db with
    | error d => rw [hd] at h; simp at h
    | ok db' => rw [hd] at h; simp at h

lemma add_quote_mutates (s : List Char) (m : VariantMode) (db : List Quote) :
    (add_quote s m db).1 = db ∨
      (s ∉ Database.get_quotes db ∧ (add_quote s m db).1 = db ++ [⟨s, m⟩]) := by
  by_cases hl : s.length > MAX_QUOTE_LENGTH
  · left
    unfold add_quote
    rw [if_pos hl]
  · by_cases hm : s ∈ Database.get_quotes db
    · left
      rw [(add_quote_spec s m db).2.1 (Nat.not_lt.mp hl) hm]
    · right
      exact ⟨hm, by rw [(add_quote_spec s m db).2.2 (Nat.not_lt.mp hl) hm]⟩

lemma uwuAdd_error_store {raw : List Char} {db : List Quote} {e : Err}
    (h : (uwuAdd raw db).2 = Except.error e) : (uwuAdd raw db).1 = db := by
  cases hu : uwuify raw with
  | error e' => simp only [uwuAdd, hu]
  | ok p =>
    obtain ⟨s, evs⟩ := p
    rcases ha : add_quote s VariantMode.UWU db with ⟨db', r⟩
    cases r with
    | error e' =>
      have hst : (add_quote s VariantMode.UWU db).1 = db :=
        add_quote_error_store (e := e') (by rw [ha])
      rw [ha] at hst
      simp only [uwuAdd, hu, ha]
      exact hst
    | ok evs' =>
      simp only [uwuAdd, hu, ha] at h
      simp at h

lemma uwuAdd_mutates (raw : List Char) (db : List Quote) :
    (uwuAdd raw db).1 = db ∨
      ∃ q : Quote, q.quote ∉ Database.get_quotes db ∧ (uwuAdd raw db).1 = db ++ [q] := by
  cases hu : uwuify raw with
  | error e => left; simp only [uwuAdd, hu]
  | ok p =>
    obtain ⟨s, evs⟩ := p
    have hm := add_quote_mutates s VariantMode.UWU db
    rcases ha : add_quote s VariantMode.UWU db with ⟨db', r⟩
    rw [ha] at hm
    cases r with
    | error e =>
      simp only [uwuAdd, hu, ha]
      rcases hm with hm | ⟨hn, hm⟩
      · left; exact hm
      · right; exact ⟨⟨s, VariantMode.UWU⟩, hn, hm⟩
    | ok evs' =>
      simp only [uwuAdd, hu, ha]
      rcases hm with hm | ⟨hn, hm⟩
      · left; exact hm
      · right; exact ⟨⟨s, VariantMode.UWU⟩, hn, hm⟩

lemma run_command_mutates (c : List Char) (db : List Quote) :
    (run_command c db).1 = db ∨
      ∃ q : Quote, q.quote ∉ Database.get_quotes db ∧ (run_command c db).1 = db ++ [q] := by
  unfold run_command
  split
  · exact uwuAdd_mutates _ db
  · split
    · left; rfl
    · split
      · left; rfl
      · split
        · rcases add_quote_mutates (pySlice c 7 (c.length - 1)) VariantMode.NORMAL db with
            h | ⟨hn, h⟩
          · left; exact h
          · right; exact ⟨⟨pySlice c 7 (c.length - 1), VariantMode.NORMAL⟩, hn, h⟩
        · left; rfl

lemma run_command_error_store (c : List Char) (db : List Quote) (e : Err) :
    (run_command c db).2 = Except.error e → (run_command c db).1 = db := by
  unfold run_command
  split
  · exact fun h => uwuAdd_error_store h
  · split
    · exact fun _ => rfl
    · split
      · intro h; simp at h
      · split
        · exact fun h => add_quote_error_store h
        · exact fun _ => rfl

lemma get_quotes_append (db : List Quote) (q : Quote) :
    Database.get_quotes (db ++ [q]) = Database.get_quotes db ++ [q.quote] := by
  simp [Database.get_quotes]

lemma run_command_nodup (c : List Char) (db : List Quote)
    (h : (Database.get_quotes db).Nodup) :
    (Database.get_quotes (run_command c db).1).Nodup := by
  rcases run_command_mutates c db with he | ⟨q, hq, he⟩
  · rw [he]; exact h
  · rw [he, get_quotes_append]
    simp [List.nodup_append, h, hq]

lemma intercalate_cons_cons (sep x y : List Char) (ys : List (List Char)) :
    List.intercalate sep (x :: y :: ys) = x ++ sep ++ List.intercalate sep (y :: ys) := by
  simp [List.intercalate, List.intersperse]

lemma partially_eq_map (q : List Char) :
    partially_transformed_quote q = q.map uwuChar := by
  unfold partially_transformed_quote pyReplace
  simp only [List.map_map]
  congr 1
  funext c
  simp only [Function.comp_apply]
  by_cases hL : c = ('L')
  · subst hL; rfl
  · by_cases hl : c = ('l')
    · subst hl; rfl
    · by_cases hR : c = ('R')
      · subst hR; rfl
      · by_cases hr : c = ('r')
        · subst hr; rfl
        · simp [uwuChar, hL, hl, hR, hr]

/-- C1, counterexample: on the input "under", the transform's fully
transformed text is "u-undew" (the code prepends `u-` to the whole word),
not the "u-ndew" that the claim's hyphen-insertion reading
(`uwuTransformClaim`) produces; `uwuify` indeed returns "u-undew". -/
theorem C1_counterexample :
    fully_transformed_quote (("under").toList) ≠ uwuTransformClaim (("under").toList) ∧
    fully_transformed_quote (("under").toList) = ("u-undew").toList ∧
    uwuTransformClaim (("under").toList) = ("u-ndew").toList ∧
    uwuify (("under").toList) = Except.ok ((("u-undew").toList), []) := by
  refine ⟨by decide, by decide, by decide, by decide⟩

/-- C1, amended: the transform's candidate text is produced by (a) replacing
every `L`/`l`/`R`/`r` with `W`/`w` case-preservingly (`uwuChar` applied to
every character), then (b) for each word of the step-(a) result (words
delimited by the space character), prepending `U-` to words starting with
`U` and `u-` to words starting with `u` (so "under" becomes "u-undew"),
leaving other words unchanged; whenever the candidate is at most 50
characters long and differs from the input, it is the transform's result. -/
theorem C1_amended_transform :
    (∀ quote : List Char,
      partially_transformed_quote quote = quote.map uwuChar ∧
      fully_transformed_quote quote =
        List.intercalate ([' ']) ((pySplit (' ') (quote.map uwuChar)).map uwuWord) ∧
      ((fully_transformed_quote quote).length ≤ MAX_QUOTE_LENGTH →
        fully_transformed_quote quote ≠ quote →
        uwuify quote = Except.ok (fully_transformed_quote quote, []))) ∧
    fully_transformed_quote (("under").toList) = ("u-undew").toList := by
  refine ⟨fun quote => ⟨partially_eq_map quote, ?_, fun hlen hne => ?_⟩, by decide⟩
  · unfold fully_transformed_quote
    rw [partially_eq_map]
  · unfold uwuify
    rw [if_neg (Nat.not_lt.mpr hlen)]
    simp only
    rw [if_neg hne]

/-- C1, witness for the amended theorem at the input "under": the candidate
is at most 50 characters and differs from the input, so `uwuify` returns it. -/
theorem C1_witness :
    uwuify (("under").toList)
      = Except.ok (fully_transformed_quote (("under").toList), []) :=
  (C1_amended_transform.1 (("under").toList)).2.2 (by decide) (by decide)

/-- C2, counterexample: for the text "lol", the command `quote uwu"lol"`
does not extract "lol": the store afterwards holds "ow" (the transform of
"ol"), not "wow" (the transform of "lol"). -/
theorem C2_counterexample :
    run_command (("quote uwu\"lol\"").toList) []
        = ([⟨("ow").toList, VariantMode.UWU⟩], Except.ok []) ∧
    uwuify (("lol").toList) = Except.ok ((("wow").toList), []) ∧
    ([⟨("ow").toList, VariantMode.UWU⟩] : List Quote)
        ≠ [⟨("wow").toList, VariantMode.UWU⟩] := by
  refine ⟨by decide, by decide, by decide⟩

/-- C2, amended: for every text t, the command `quote uwu"` ++ t ++ `"`
extracts t with its first character dropped (offset 11 is one past the
10-character opening `quote uwu"`), and the command runs the uwu-add action
on that raw quote: it transforms it and, on success, adds the result with
mode UWU. -/
theorem C2_amended :
    ∀ (t : List Char) (db : List Quote),
      pySlice ((("quote uwu\"").toList) ++ t ++ (("\"").toList)) 11
          (((("quote uwu\"").toList) ++ t ++ (("\"").toList)).length - 1) = t.drop 1 ∧
      run_command ((("quote uwu\"").toList) ++ t ++ (("\"").toList)) db
          = uwuAdd (t.drop 1) db := by
  intro t db
  have hp : ("quote uwu").toList <+: (("quote uwu\"").toList) ++ t ++ (("\"").toList) :=
    List.IsPrefix.trans ⟨[('"')], rfl⟩ (List.prefix_append _ _)
  refine ⟨pySlice_uwu t, ?_⟩
  rw [run_command_uwu _ db hp, pySlice_uwu t]

/-- C3: `Database.add_quote` raises `DuplicateError` exactly when the new
quote's rendered text (its `str`, the stored `quote` field) already occurs
among the stored quotes, and otherwise appends it; consequently every
command preserves the invariant that no two stored quotes render to the
same text. -/
theorem C3_store_invariant :
    (∀ (q : Quote) (db : List Quote),
      (q.quote ∈ Database.get_quotes db →
        Database.add_quote q db = Except.error DuplicateError.mk) ∧
      (q.quote ∉ Database.get_quotes db →
        Database.add_quote q db = Except.ok (db ++ [q]))) ∧
    (∀ (c : List Char) (db : List Quote),
      (Database.get_quotes db).Nodup →
      (Database.get_quotes (run_command c db).1).Nodup) := by
  refine ⟨fun q db => ⟨fun h => ?_, fun h => ?_⟩, fun c db h => run_command_nodup c db h⟩
  · unfold Database.add_quote
    rw [if_pos h]
  · unfold Database.add_quote
    rw [if_neg h]

/-- C3, witness: duplicate detection and append at concrete stores, and
invariant preservation across a concrete command. -/
theorem C3_witness :
    Database.add_quote ⟨("a").toList, VariantMode.UWU⟩ [⟨("a").toList, VariantMode.NORMAL⟩]
        = Except.error DuplicateError.mk ∧
    Database.add_quote ⟨("b").toList, VariantMode.NORMAL⟩ [⟨("a").toList, VariantMode.NORMAL⟩]
        = Except.ok [⟨("a").toList, VariantMode.NORMAL⟩, ⟨("b").toList, VariantMode.NORMAL⟩] ∧
    (Database.get_quotes
        (run_command (("quote \"a\"").toList) [⟨("a").toList, VariantMode.NORMAL⟩]).1).Nodup :=
  ⟨(C3_store_invariant.1 ⟨("a").toList, VariantMode.UWU⟩ _).1 (by decide),
   (C3_store_invariant.1 ⟨("b").toList, VariantMode.NORMAL⟩ _).2 (by decide),
   C3_store_invariant.2 (("quote \"a\"").toList) _ (by decide)⟩

/-- C4: whenever `run_command` raises an error, the store afterwards equals
the store before, and the one error that does not propagate — the
`DuplicateError` of a within-length duplicate add — also leaves the store
unchanged, producing only the "already added" console message. -/
theorem C4_no_mutation_on_error :
    (∀ (c : List Char) (db : List Quote) (e : Err),
      (run_command c db).2 = Except.error e → (run_command c db).1 = db) ∧
    (∀ (s : List Char) (m : VariantMode) (db : List Quote),
      s.length ≤ MAX_QUOTE_LENGTH → s ∈ Database.get_quotes db →
      add_quote s m db =
        (db, Except.ok [OutEvent.print (("Quote has already been added previously").toList)])) :=
  ⟨fun c db e h => run_command_error_store c db e h,
   fun s m db h1 h2 => (add_quote_spec s m db).2.1 h1 h2⟩

/-- C4, witness: an invalid command leaves a concrete nonempty store
unchanged, and a duplicate add leaves it unchanged with the notice. -/
theorem C4_witness :
    (run_command (("nonsense").toList) [⟨("a").toList, VariantMode.NORMAL⟩]).1
        = [⟨("a").toList, VariantMode.NORMAL⟩] ∧
    add_quote (("a").toList) VariantMode.UWU [⟨("a").toList, VariantMode.NORMAL⟩]
        = ([⟨("a").toList, VariantMode.NORMAL⟩],
           Except.ok [OutEvent.print (("Quote has already been added previously").toList)]) :=
  ⟨C4_no_mutation_on_error.1 (("nonsense").toList) _ Err.invalidCommand (by decide),
   C4_no_mutation_on_error.2 (("a").toList) VariantMode.UWU _ (by decide) (by decide)⟩

/-- C5, counterexample: `quote uwu"hello world"` on the empty store does not
fail with NotModified — "hello world" contains `l` and `r`, and the raw
quote actually extracted is "ello world" — it succeeds and stores
"ewwo wowwd". -/
theorem C5_counterexample :
    run_command (("quote uwu\"hello world\"").toList) []
        = ([⟨("ewwo wowwd").toList, VariantMode.UWU⟩], Except.ok []) ∧
    (run_command (("quote uwu\"hello world\"").toList) []).2 ≠ Except.error Err.notModified ∧
    (run_command (("quote uwu\"hello world\"").toList) []).1 ≠ [] := by
  refine ⟨by decide, by decide, by decide⟩

/-- C5, amended: on any store not already containing "ewwo wowwd", the
command `quote uwu"hello world"` succeeds: the extracted raw quote is
"ello world" (first character dropped by the offset), the transform
replaces its `l`/`r` letters giving "ewwo wowwd", and that text is stored
with mode UWU. -/
theorem C5_amended :
    ∀ db : List Quote, ("ewwo wowwd").toList ∉ Database.get_quotes db →
      run_command (("quote uwu\"hello world\"").toList) db
        = (db ++ [⟨("ewwo wowwd").toList, VariantMode.UWU⟩], Except.ok []) := by
  intro db h
  rw [run_command_uwu _ db (by decide)]
  have hraw : pySlice (("quote uwu\"hello world\"").toList) 11
      ((("quote uwu\"hello world\"").toList).length - 1) = ("ello world").toList := by decide
  rw [hraw]
  have hu : uwuify (("ello world").toList)
      = Except.ok ((("ewwo wowwd").toList), []) := by decide
  have ha := (add_quote_spec (("ewwo wowwd").toList) VariantMode.UWU db).2.2 (by decide) h
  simp only [uwuAdd, hu, ha]
  rfl

/-- C5, witness for the amended theorem at the empty store. -/
theorem C5_witness :
    run_command (("quote uwu\"hello world\"").toList) []
      = ([⟨("ewwo wowwd").toList, VariantMode.UWU⟩], Except.ok []) := by
  have h := C5_amended [] (by decide)
  simpa using h

/-- C6: for any mode and store, `add_quote` with a 50-character text passes
the length check and reaches `Database.add_quote` (its outcome is exactly
the store insertion, or the duplicate notice), while a text of 51 or more
characters fails with the TooLong error before any insertion attempt,
leaving the store unchanged. -/
theorem C6_length_policy :
    ∀ (s : List Char) (m : VariantMode) (db : List Quote),
      (s.length = 50 →
        add_quote s m db =
          match Database.add_quote ⟨s, m⟩ db with
          | Except.error _ =>
              (db, Except.ok
                [OutEvent.print (("Quote has already been added previously").toList)])
          | Except.ok db' => (db', Except.ok [])) ∧
      (51 ≤ s.length → add_quote s m db = (db, Except.error Err.tooLong)) := by
  intro s m db
  constructor
  · intro h50
    unfold add_quote
    rw [if_neg (by rw [h50]; decide)]
  · intro h51
    unfold add_quote
    rw [if_pos (by unfold MAX_QUOTE_LENGTH; omega)]

/-- C6, witness: a 50-character quote is stored; a 51-character quote fails
with TooLong and stores nothing. -/
theorem C6_witness :
    add_quote (List.replicate 50 ('a')) VariantMode.NORMAL []
        = ([⟨List.replicate 50 ('a'), VariantMode.NORMAL⟩], Except.ok []) ∧
    add_quote (List.replicate 51 ('a')) VariantMode.NORMAL []
        = ([], Except.error Err.tooLong) := by
  constructor
  · rw [(C6_length_policy (List.replicate 50 ('a')) VariantMode.NORMAL []).1 (by decide)]
    decide
  · exact (C6_length_policy (List.replicate 51 ('a')) VariantMode.NORMAL []).2 (by decide)

/-- C7: the formatter yields the empty string on the empty store, and on a
nonempty store yields one "- "-prefixed line per stored quote, joined by
newlines in insertion order; concretely, quotes A, B, C render to
"- A\n- B\n- C". -/
theorem C7_formatter_renders :
    list_formatted_quotes [] = [] ∧
    (∀ (q : Quote) (db : List Quote),
      list_formatted_quotes (q :: db) =
        ('-') :: (' ') :: q.quote ++
          (if db = [] then [] else ('\n') :: list_formatted_quotes db)) ∧
    list_formatted_quotes
        [⟨("A").toList, VariantMode.NORMAL⟩, ⟨("B").toList, VariantMode.NORMAL⟩,
         ⟨("C").toList, VariantMode.NORMAL⟩] = ("- A\n- B\n- C").toList := by
  refine ⟨rfl, fun q db => ?_, by decide⟩
  cases db with
  | nil =>
    simp [list_formatted_quotes, Database.get_quotes, List.intercalate]
  | cons q' db' =>
    rw [if_neg (by simp)]
    unfold list_formatted_quotes Database.get_quotes
    simp only [List.map_cons]
    rw [intercalate_cons_cons]
    simp [List.append_assoc]

/-- C8: any command of the form `quote list` followed by anything only
prints the formatted listing and returns the store unchanged; moreover, for
every command whatsoever the store either stays unchanged or gains exactly
one quote whose text was not previously stored (only a successful add
mutates the store). -/
theorem C8_list_command_pure :
    ∀ (t : List Char) (db : List Quote),
      run_command ((("quote list").toList) ++ t) db
          = (db, Except.ok [OutEvent.print (list_formatted_quotes db)]) ∧
      (∀ c : List Char, (run_command c db).1 = db ∨
        ∃ q : Quote, q.quote ∉ Database.get_quotes db ∧ (run_command c db).1 = db ++ [q]) := by
  intro t db
  constructor
  · unfold run_command
    rw [if_neg, if_neg, if_pos]
    · exact List.prefix_append _ _
    · rintro ⟨s, hs⟩; simp at hs
    · rintro ⟨s, hs⟩; simp at hs
  · exact fun c => run_command_mutates c db

/-- C9: every command starting with `quote uwu` is dispatched to the uwu add
path with the substring from index 11 up to (excluding) the final character
as the raw quote — no closing delimiter is checked — and in particular the
bare command `quote uwu` transforms the empty string and fails with the
NotModified error. -/
theorem C9_uwu_path_no_validation :
    ∀ (c : List Char) (db : List Quote),
      ((("quote uwu").toList <+: c) →
        run_command c db = uwuAdd (pySlice c 11 (c.length - 1)) db) ∧
      run_command (("quote uwu").toList) db = (db, Except.error Err.notModified) := by
  intro c db
  refine ⟨fun h => run_command_uwu c db h, ?_⟩
  rw [run_command_uwu _ db (List.prefix_refl _)]
  rfl

/-- C9, witness: a command with a quoted text runs the uwu add path on the
fixed-offset substring, and the bare `quote uwu` fails with NotModified. -/
theorem C9_witness :
    run_command (("quote uwu\"xlol\"").toList) []
        = ([⟨("wow").toList, VariantMode.UWU⟩], Except.ok []) ∧
    run_command (("quote uwu").toList) [] = ([], Except.error Err.notModified) := by
  constructor
  · rw [(C9_uwu_path_no_validation (("quote uwu\"xlol\"").toList) []).1 (by decide)]
    decide
  · exact (C9_uwu_path_no_validation (("quote uwu").toList) []).2

/-- C10: on the uwu path, when the fully transformed raw quote exceeds 50
characters and the partial transformation changed the text, `uwuify`
returns the partially transformed text together with the non-fatal warning;
and if that partially transformed text still exceeds 50 characters, the
whole command fails with the TooLong error, leaving the store unchanged. -/
theorem C10_partial_fallback :
    ∀ (c : List Char) (db : List Quote),
      ("quote uwu").toList <+: c →
      MAX_QUOTE_LENGTH < (fully_transformed_quote (pySlice c 11 (c.length - 1))).length →
      partially_transformed_quote (pySlice c 11 (c.length - 1)) ≠ pySlice c 11 (c.length - 1) →
      uwuify (pySlice c 11 (c.length - 1))
          = Except.ok (partially_transformed_quote (pySlice c 11 (c.length - 1)),
              [OutEvent.warn (("Quote too long, only partially transformed").toList)]) ∧
      (MAX_QUOTE_LENGTH < (partially_transformed_quote (pySlice c 11 (c.length - 1))).length →
        run_command c db = (db, Except.error Err.tooLong)) := by
  intro c db hp hlong hne
  have hu : uwuify (pySlice c 11 (c.length - 1))
      = Except.ok (partially_transformed_quote (pySlice c 11 (c.length - 1)),
          [OutEvent.warn (("Quote too long, only partially transformed").toList)]) := by
    unfold uwuify
    rw [if_pos hlong]
    simp only
    rw [if_neg hne]
  refine ⟨hu, fun hplong => ?_⟩
  rw [run_command_uwu c db hp]
  have ha := (add_quote_spec (partially_transformed_quote (pySlice c 11 (c.length - 1)))
      VariantMode.UWU db).1 hplong
  simp only [uwuAdd, hu, ha]

/-- C10, witness: a raw quote of 51 `l`s exceeds 50 characters both fully
and partially transformed, so the command fails with TooLong and stores
nothing. -/
theorem C10_witness :
    run_command ((("quote uwu\"x").toList) ++ List.replicate 51 ('l') ++ (("\"").toList)) []
        = ([], Except.error Err.tooLong) := by
  have h := C10_partial_fallback
      ((("quote uwu\"x").toList) ++ List.replicate 51 ('l') ++ (("\"").toList)) []
      (by decide) (by decide) (by decide)
  exact h.2 (by decide)

end Qualifier
